import Mathlib

/-!
Shallow embedding of `src/data_pipeline.py` from the retail-deadstock-analysis
repository, together with theorems settling the specification claims about it.

Conventions of the embedding:
* every pandas numeric value is modelled as a rational number (`ℚ`); the
  `1e-3` epsilon of the source is the exact rational `1/1000`;
* a DataFrame is a list of rows, in order; groupby/transform, rolling windows
  and quantiles are given their pandas semantics over such lists;
* `np.nan_to_num` is the identity here because rational arithmetic is total
  (Lean division by zero yields 0, so no NaN can arise);
* Python exceptions become an `Except` error value; the Python date parsing is
  modelled by carrying already-parsed calendar data in each row.
-/

namespace RetailDeadstock

/-- Calendar date carried by the `Date` column. `ord` is the absolute day
ordinal that date comparison and sorting use; `month`, `dayOfYear` and
`weekday` model the pandas `dt.month`, `dt.dayofyear` and `dt.weekday`
accessors (weekday 0 = Monday, so 5/6 are Saturday/Sunday). -/
structure Date where
  ord : Nat
  month : Nat
  dayOfYear : Nat
  weekday : Nat
deriving DecidableEq, Inhabited

/-- One raw inventory record: a row of the loaded table, with the columns the
pipeline reads (`NUMERIC_FEATURES`, `CATEGORICAL_FEATURES`,
`BOOLEAN_FEATURES`, the keys and the date). -/
structure Row where
  storeId : String
  productId : String
  date : Date
  inventoryLevel : ℚ
  unitsSold : ℚ
  unitsOrdered : ℚ
  demandForecast : ℚ
  price : ℚ
  discount : ℚ
  competitorPricing : ℚ
  holidayPromotion : Bool
  category : String
  region : String
  weatherCondition : String
  seasonality : String
deriving DecidableEq, Inhabited

/-- The grouping key used by `df.groupby(["Store ID", "Product ID"])`. -/
def groupKey (r : Row) : String × String := (r.storeId, r.productId)

/-- Mean of a list of rationals (`Series.mean`); 0 on the empty list, which
the pipeline never hits because every rolling window uses `min_periods=1`. -/
def mean (xs : List ℚ) : ℚ := xs.sum / (xs.length : ℚ)

/-- `Series.rolling(w, min_periods=1).mean()`: at position `i` the mean of the
window consisting of the current element and up to `w - 1` immediately
preceding ones (the window shrinks at the start instead of yielding NaN). -/
def rollingMean (w : Nat) (xs : List ℚ) : List ℚ :=
  xs.mapIdx fun i _ => mean ((xs.take (i + 1)).drop (i + 1 - w))

/-- `Series.pct_change().fillna(0.0)`: relative change from the previous
element; the first position (NaN in pandas) becomes 0. A zero previous value
(infinite in pandas) falls to 0 under total rational division; no claim
touches that case. -/
def pctChange (xs : List ℚ) : List ℚ :=
  xs.mapIdx fun i _ =>
    if i = 0 then 0 else (xs.getD i 0 - xs.getD (i - 1) 0) / xs.getD (i - 1) 0

/-- Loop body of `_days_since_last_sale`: threads the running counter through
the values; `counter = 0 if value > 0 else counter + 1` at every row. -/
def dslsGo : ℚ → List ℚ → List ℚ
  | _, [] => []
  | counter, v :: rest =>
      (if 0 < v then 0 else counter + 1) ::
        dslsGo (if 0 < v then 0 else counter + 1) rest

/-- `_days_since_last_sale(values)`: number of days since the last non-zero
sale for each row, starting the counter at 0 before the first row. -/
def daysSinceLastSale (values : List ℚ) : List ℚ := dslsGo 0 values

/-- `np.nanmin` over a nonempty list (0 for the empty list, unreachable on a
nonempty table). -/
def listMin : List ℚ → ℚ
  | [] => 0
  | x :: xs => xs.foldl min x

/-- `np.nanmax` over a nonempty list (0 for the empty list). -/
def listMax : List ℚ → ℚ
  | [] => 0
  | x :: xs => xs.foldl max x

/-- The min-max normalization of `engineer_features`:
`(values - min) / (span if span else 1.0)` — when the global range is zero it
divides by 1 instead of 0. -/
def minmaxNorm (xs : List ℚ) : List ℚ :=
  let m := listMin xs
  let span := listMax xs - m
  xs.map fun v => (v - m) / (if span = 0 then 1 else span)

/-- The `sell_through_rate` normalization of `engineer_features`:
`values / (np.nanmax(values) or 1.0)` — divide by the global max, replaced by
1 when that max is 0 (Python falsiness of `0.0`). -/
def divMaxNorm (xs : List ℚ) : List ℚ :=
  let mx := listMax xs
  xs.map fun v => v / (if listMax xs = 0 then 1 else mx)

/-- `df.groupby(["Store ID", "Product ID"], sort=False)[col].transform(f)`:
for each row, apply `f` to the whole column of the row's group (the rows with
the same key, in table order) and take the entry at this row's position within
its group; results are aligned back to the original row positions. -/
def groupTransform (f : List ℚ → List ℚ) (proj : Row → ℚ) (rows : List Row) :
    List ℚ :=
  rows.mapIdx fun i r =>
    (f ((rows.filter fun s => decide (groupKey s = groupKey r)).map proj)).getD
      (((rows.take i).filter fun s => decide (groupKey s = groupKey r)).length) 0

/-- The `1e-3` epsilon of the source. -/
def eps : ℚ := 1 / 1000

/-- A row of the engineered table: the raw record plus every column
`engineer_features` adds. -/
structure ERow extends Row where
  rolling_sales_7 : ℚ
  rolling_sales_30 : ℚ
  rolling_inventory_30 : ℚ
  sell_through_rate : ℚ
  days_since_sale : ℚ
  inventory_trend : ℚ
  forecast_error : ℚ
  order_gap : ℚ
  rolling_inventory_30_norm : ℚ
  days_since_sale_norm : ℚ
  sell_through_rate_norm : ℚ
deriving DecidableEq, Inhabited

/-- `engineer_features(df)`: rolling metrics, engineered signals and the three
whole-dataset normalized companions, computed exactly as in the source. -/
def engineer_features (rows : List Row) : List ERow :=
  let rs7 := groupTransform (rollingMean 7) (·.unitsSold) rows
  let rs30 := groupTransform (rollingMean 30) (·.unitsSold) rows
  let ri30 := groupTransform (rollingMean 30) (·.inventoryLevel) rows
  let str := List.zipWith (fun a b => a / (b + eps)) rs30 ri30
  let dss := groupTransform daysSinceLastSale (·.unitsSold) rows
  let itrend := groupTransform pctChange (·.inventoryLevel) rows
  let ri30n := minmaxNorm ri30
  let dssn := minmaxNorm dss
  let strn := divMaxNorm str
  rows.mapIdx fun i r =>
    { r with
      rolling_sales_7 := rs7.getD i 0
      rolling_sales_30 := rs30.getD i 0
      rolling_inventory_30 := ri30.getD i 0
      sell_through_rate := str.getD i 0
      days_since_sale := dss.getD i 0
      inventory_trend := itrend.getD i 0
      forecast_error := (r.unitsSold - r.demandForecast) / (r.demandForecast + eps)
      order_gap := r.unitsOrdered - r.unitsSold
      rolling_inventory_30_norm := ri30n.getD i 0
      days_since_sale_norm := dssn.getD i 0
      sell_through_rate_norm := strn.getD i 0 }

/-- `Series.quantile(q)` with the default linear interpolation: with the
values sorted ascending and `h = q * (n - 1)`, the result is
`s[floor h] + (h - floor h) * (s[floor h + 1] - s[floor h])`. -/
def quantileLinear (q : ℚ) (xs : List ℚ) : ℚ :=
  let s := xs.mergeSort fun a b => decide (a ≤ b)
  if s.length = 0 then 0
  else
    let h : ℚ := q * ((s.length : ℚ) - 1)
    let lo := (Int.floor h).toNat
    s.getD lo 0 + (h - Int.floor h) * (s.getD (lo + 1) (s.getD lo 0) - s.getD lo 0)

/-- `Series.clip(lo, hi)` pointwise: `min hi (max lo x)`. -/
def clip (lo hi x : ℚ) : ℚ := min hi (max lo x)

/-- A row of the labeled table: an engineered row plus the two columns
`label_dead_stock` adds. -/
structure LRow extends ERow where
  dead_stock_label : ℕ
  risk_score : ℚ
deriving DecidableEq, Inhabited

/-- `label_dead_stock(df)`: the binary dead-stock rule disjunction (with the
`high_inventory` threshold at the 45th percentile of `rolling_inventory_30`
over the whole table) and the clipped weighted risk score. `np.nan_to_num` is
the identity here (rational arithmetic produces no NaN). -/
def label_dead_stock (rows : List ERow) : List LRow :=
  let thresh := quantileLinear (45 / 100) (rows.map (·.rolling_inventory_30))
  rows.map fun r =>
    let high_inventory := decide (thresh < r.rolling_inventory_30)
    let slow_turnover := decide (r.rolling_sales_7 ≤ (1 / 10) * r.rolling_inventory_30)
    let weak_sell_through := decide (r.sell_through_rate < 3 / 10)
    let overstock_vs_forecast := decide (50 < r.inventoryLevel - r.demandForecast)
    let no_sales_today := decide (r.unitsSold = 0)
    let low_units_sold := decide (r.unitsSold ≤ 5)
    { r with
      dead_stock_label :=
        if (high_inventory && slow_turnover
            || overstock_vs_forecast && weak_sell_through
            || high_inventory && no_sales_today
            || high_inventory && low_units_sold) then 1 else 0
      risk_score :=
        clip 0 1
          ((4 / 10) * r.rolling_inventory_30_norm
            + (3 / 10) * (1 - r.sell_through_rate_norm)
            + (3 / 10) * (1 - clip 0 1 (r.rolling_sales_7 / (r.rolling_inventory_30 + eps)))) }

/-- The errors `load_data` can raise. `valueError` is the Python `ValueError`
raised for a frame without a `Date` column — the schema-error kind of the
design — and `typeError` is the Python `TypeError` raised for an unsupported
source type. -/
inductive LoadError where
  | valueError (msg : String)
  | typeError (msg : String)
deriving DecidableEq

/-- Decidable equality for `Except` results, so that concrete pipeline runs
can be checked by evaluation. -/
def exceptDecEq {ε α : Type} [DecidableEq ε] [DecidableEq α] :
    DecidableEq (Except ε α)
  | .error e, .error f =>
      if h : e = f then isTrue (by rw [h])
      else isFalse fun hc => h (by cases hc; rfl)
  | .error _, .ok _ => isFalse fun hc => Except.noConfusion hc
  | .ok _, .error _ => isFalse fun hc => Except.noConfusion hc
  | .ok x, .ok y =>
      if h : x = y then isTrue (by rw [h])
      else isFalse fun hc => h (by cases hc; rfl)

instance {ε α : Type} [DecidableEq ε] [DecidableEq α] :
    DecidableEq (Except ε α) := exceptDecEq

/-- A data source passed to `load_data`. A `path` carries the rows the CSV
parses to; a `frame` is an in-memory table, with a flag recording whether it
has a `Date` column (rows carry already-parsed dates, modelling
`pd.to_datetime`); `other` is any unsupported source type, by type name. -/
inductive Source where
  | path (rows : List Row)
  | frame (hasDateColumn : Bool) (rows : List Row)
  | other (typeName : String)

/-- Strict lexicographic order on character lists by code point, the order
pandas uses to sort string columns. -/
def charListLt : List Char → List Char → Bool
  | [], [] => false
  | [], _ :: _ => true
  | _ :: _, [] => false
  | a :: as, b :: bs =>
      if a.toNat < b.toNat then true
      else if b.toNat < a.toNat then false
      else charListLt as bs

/-- Strict lexicographic order on strings by code point. -/
def strLt (a b : String) : Bool := charListLt a.data b.data

/-- The `sort_values(["Store ID", "Product ID", "Date"])` comparison. -/
def canonicalLE (a b : Row) : Bool :=
  strLt a.storeId b.storeId
    || (decide (a.storeId = b.storeId)
        && (strLt a.productId b.productId
            || (decide (a.productId = b.productId) && decide (a.date.ord ≤ b.date.ord))))

/-- `load_data(source)`: parse/copy the source, then sort by
(Store ID, Product ID, Date) and reset the index (the fresh index is implicit
in list order). A frame without a `Date` column raises
`ValueError("DataFrame must include a Date column")`; an unsupported source
type raises `TypeError`. -/
def load_data (source : Source) : Except LoadError (List Row) :=
  match source with
  | .path rows => .ok (rows.mergeSort canonicalLE)
  | .frame hasDateColumn rows =>
      if hasDateColumn then .ok (rows.mergeSort canonicalLE)
      else .error (.valueError "DataFrame must include a Date column")
  | .other typeName => .error (.typeError ("Unsupported data source type: " ++ typeName))

/-- A row of the model-ready feature view built by `prepare_dataset`: every
column of `feature_cols` except `Date`, plus the three calendar features;
the `Date` column itself is dropped. -/
structure FeatRow where
  inventoryLevel : ℚ
  unitsSold : ℚ
  unitsOrdered : ℚ
  demandForecast : ℚ
  price : ℚ
  discount : ℚ
  competitorPricing : ℚ
  holidayPromotion : Bool
  storeId : String
  productId : String
  category : String
  region : String
  weatherCondition : String
  seasonality : String
  rolling_sales_7 : ℚ
  rolling_sales_30 : ℚ
  rolling_inventory_30 : ℚ
  sell_through_rate : ℚ
  days_since_sale : ℚ
  inventory_trend : ℚ
  forecast_error : ℚ
  order_gap : ℚ
  risk_score : ℚ
  day_of_year : Nat
  month : Nat
  is_weekend : Bool
deriving DecidableEq, Inhabited

/-- Projection of one labeled row to the feature view
(`df[feature_cols]` plus the calendar features, minus `Date`). -/
def toFeatRow (r : LRow) : FeatRow :=
  { inventoryLevel := r.inventoryLevel
    unitsSold := r.unitsSold
    unitsOrdered := r.unitsOrdered
    demandForecast := r.demandForecast
    price := r.price
    discount := r.discount
    competitorPricing := r.competitorPricing
    holidayPromotion := r.holidayPromotion
    storeId := r.storeId
    productId := r.productId
    category := r.category
    region := r.region
    weatherCondition := r.weatherCondition
    seasonality := r.seasonality
    rolling_sales_7 := r.rolling_sales_7
    rolling_sales_30 := r.rolling_sales_30
    rolling_inventory_30 := r.rolling_inventory_30
    sell_through_rate := r.sell_through_rate
    days_since_sale := r.days_since_sale
    inventory_trend := r.inventory_trend
    forecast_error := r.forecast_error
    order_gap := r.order_gap
    risk_score := r.risk_score
    day_of_year := r.date.dayOfYear
    month := r.date.month
    is_weekend := 5 ≤ r.date.weekday }

/-- The `PreparedData` dataclass: features, labels and the enriched raw
table. -/
structure PreparedData where
  features : List FeatRow
  labels : List ℕ
  raw : List LRow
deriving DecidableEq, Inhabited

/-- `prepare_dataset(source)`: load, engineer, label, then package the three
co-indexed views. -/
def prepare_dataset (source : Source) : Except LoadError PreparedData :=
  (load_data source).map fun rows =>
    let df := label_dead_stock (engineer_features rows)
    { features := df.map toFeatRow
      labels := df.map (·.dead_stock_label)
      raw := df }

/-- A row of the working frame inside `train_test_split`:
`data.features.assign(dead_stock=data.labels, Date=data.raw["Date"].values)`
— the feature columns with the label and the date reattached positionally. -/
structure TTRow where
  f : FeatRow
  dead_stock : ℕ
  date : Date
deriving DecidableEq, Inhabited

/-- The frame `train_test_split` sorts: features zipped positionally with
labels and raw dates, then sorted ascending by `Date` (stable, like
`sort_values`). -/
def ttSorted (data : PreparedData) : List TTRow :=
  ((data.features.zip (data.labels.zip (data.raw.map (·.date)))).map
      fun p => { f := p.1, dead_stock := p.2.1, date := p.2.2 }).mergeSort
    fun a b => decide (a.date.ord ≤ b.date.ord)

/-- `int(len(df) * (1 - test_size))`: the split index. For the test fractions
in [0, 1] the product is nonnegative, where Python `int` truncation is the
floor; `toNat` keeps it a list index. -/
def splitIdx (n : Nat) (test_size : ℚ) : Nat :=
  (Int.floor ((n : ℚ) * (1 - test_size))).toNat

set_option linter.unusedVariables false in
/-- `train_test_split(data, test_size, random_state)`: chronological split.
The first `splitIdx` rows of the date-sorted frame are train, the rest test;
the returned feature frames drop the `dead_stock` and `Date` columns (here:
project back to `FeatRow`). `random_state` is accepted but never read. -/
def train_test_split (data : PreparedData) (test_size : ℚ) (random_state : Int) :
    List FeatRow × List FeatRow × List ℕ × List ℕ :=
  let s := ttSorted data
  let k := splitIdx s.length test_size
  ((s.take k).map (·.f), (s.drop k).map (·.f),
    (s.take k).map (·.dead_stock), (s.drop k).map (·.dead_stock))

/-!
Object-level view of the two in-place stages. `engineer_features` and
`label_dead_stock` do not copy their argument: every derived column is
assigned directly on the frame object that was passed in
(`df["rolling_sales_7"] = ...`) and the function returns that same object.
To talk about what a caller holding a reference to the argument sees after
the call, we model a pandas DataFrame object as its base records plus its
set of assigned extra columns, and give each stage the type
`ObjFrame → ObjFrame × ObjFrame`: first component the returned frame, second
component the state of the argument object after the call. In Python both are
the same object, so the two components are equal by construction. -/

/-- A pandas DataFrame object: the base records it was built from plus the
numeric columns assigned onto it afterwards, keyed by column name. -/
structure ObjFrame where
  data : List Row
  extra : List (String × List ℚ)
deriving DecidableEq, Inhabited

/-- `df[name] = vals`: in-place column assignment (replaces the column if the
name exists, appends it otherwise). -/
def ObjFrame.setCol (df : ObjFrame) (name : String) (vals : List ℚ) : ObjFrame :=
  { df with extra := (df.extra.filter fun c => decide (c.1 ≠ name)) ++ [(name, vals)] }

/-- `df[name]` for an assigned column (empty when the column is absent —
pandas would raise a `KeyError`, which no claim exercises). -/
def ObjFrame.getCol (df : ObjFrame) (name : String) : List ℚ :=
  ((df.extra.filter fun c => decide (c.1 = name)).getLast?.map (·.2)).getD []

/-- `engineer_features` at object level: assigns the eleven engineered
columns (with the values of the list-level `engineer_features`) directly on
the argument frame and returns it; the second component is the caller-visible
state of the argument after the call — the same mutated object. -/
def engineer_features_obj (df : ObjFrame) : ObjFrame × ObjFrame :=
  let e := engineer_features df.data
  let out :=
    ((((((((((df.setCol "rolling_sales_7" (e.map (·.rolling_sales_7))).setCol
      "rolling_sales_30" (e.map (·.rolling_sales_30))).setCol
      "rolling_inventory_30" (e.map (·.rolling_inventory_30))).setCol
      "sell_through_rate" (e.map (·.sell_through_rate))).setCol
      "days_since_sale" (e.map (·.days_since_sale))).setCol
      "inventory_trend" (e.map (·.inventory_trend))).setCol
      "forecast_error" (e.map (·.forecast_error))).setCol
      "order_gap" (e.map (·.order_gap))).setCol
      "rolling_inventory_30_norm" (e.map (·.rolling_inventory_30_norm))).setCol
      "days_since_sale_norm" (e.map (·.days_since_sale_norm))).setCol
      "sell_through_rate_norm" (e.map (·.sell_through_rate_norm))
  (out, out)

/-- `label_dead_stock` at object level: reads the engineered columns off the
frame, assigns `dead_stock_label` and `risk_score` directly on the argument
frame and returns it; the second component is the caller-visible state of the
argument after the call — the same mutated object. -/
def label_dead_stock_obj (df : ObjFrame) : ObjFrame × ObjFrame :=
  let ri30 := df.getCol "rolling_inventory_30"
  let rs7 := df.getCol "rolling_sales_7"
  let str := df.getCol "sell_through_rate"
  let ri30n := df.getCol "rolling_inventory_30_norm"
  let strn := df.getCol "sell_through_rate_norm"
  let thresh := quantileLinear (45 / 100) ri30
  let n := df.data.length
  let lbls := (List.range n).map fun i =>
    let r := df.data.getD i default
    if (decide (thresh < ri30.getD i 0) && decide (rs7.getD i 0 ≤ (1 / 10) * ri30.getD i 0)
        || decide (50 < r.inventoryLevel - r.demandForecast) && decide (str.getD i 0 < 3 / 10)
        || decide (thresh < ri30.getD i 0) && decide (r.unitsSold = 0)
        || decide (thresh < ri30.getD i 0) && decide (r.unitsSold ≤ 5)) then (1 : ℚ) else 0
  let risks := (List.range n).map fun i =>
    clip 0 1
      ((4 / 10) * ri30n.getD i 0 + (3 / 10) * (1 - strn.getD i 0)
        + (3 / 10) * (1 - clip 0 1 (rs7.getD i 0 / (ri30.getD i 0 + eps))))
  let out := (df.setCol "dead_stock_label" lbls).setCol "risk_score" risks
  (out, out)

/-! Concrete records used to instantiate the theorems below on closed inputs. -/

/-- A concrete record with a positive sale. -/
def rowA : Row :=
  { storeId := "S1", productId := "P1", date := ⟨3, 1, 3, 2⟩,
    inventoryLevel := 40, unitsSold := 8, unitsOrdered := 6, demandForecast := 10,
    price := 5, discount := 0, competitorPricing := 5, holidayPromotion := false,
    category := "Toys", region := "North", weatherCondition := "Sunny",
    seasonality := "Summer" }

/-- A concrete record of the same group with no sale, on a later date. -/
def rowB : Row := { rowA with unitsSold := 0, date := ⟨4, 1, 4, 3⟩ }

/-- A concrete record of a different (store, product) group, earliest date. -/
def rowC : Row :=
  { rowA with storeId := "S2", inventoryLevel := 4, unitsSold := 1, date := ⟨1, 1, 1, 0⟩ }

/-- A concrete in-memory source with a date column. -/
def srcW : Source := .frame true [rowB, rowA, rowC]

/-- The dataset the pipeline produces from `srcW`. -/
def pdW : PreparedData := (prepare_dataset srcW).toOption.getD default

/-- A concrete engineered row: overstocked versus forecast
(inventory 100 vs forecast 40) with a weak sell-through rate. -/
def erW : ERow :=
  { ({ (default : Row) with inventoryLevel := 100, demandForecast := 40 } : Row) with
    rolling_sales_7 := 0, rolling_sales_30 := 0, rolling_inventory_30 := 2,
    sell_through_rate := 1 / 10, days_since_sale := 1, inventory_trend := 0,
    forecast_error := 0, order_gap := 0, rolling_inventory_30_norm := 1,
    days_since_sale_norm := 0, sell_through_rate_norm := 0 }

/-- The window the specification describes for the trailing means: the rows of
the table up to and including row `i` that belong to row `i`'s
(store, product) group, restricted to the last `w` of them, projected to the
column in question. Stated from the spec's words, to be compared with what
`engineer_features` computes. -/
def specTrailingWindow (w : Nat) (proj : Row → ℚ) (rows : List Row) (i : Nat) :
    List ℚ :=
  let g := ((rows.take (i + 1)).filter fun s =>
    decide (groupKey s = groupKey (rows.getD i default))).map proj
  g.drop (g.length - w)

/-! ## Auxiliary lemmas -/

theorem getD_map_lt {α β : Type} (f : α → β) (l : List α) (i : Nat)
    (h : i < l.length) (d : β) (d₀ : α) : (l.map f).getD i d = f (l.getD i d₀) := by
  rw [List.getD_eq_getElem _ _ (by simpa using h), List.getElem_map,
    List.getD_eq_getElem _ _ h]

theorem clip01_nonneg (x : ℚ) : 0 ≤ clip 0 1 x :=
  le_min (by norm_num) (le_max_left 0 x)

theorem clip01_le_one (x : ℚ) : clip 0 1 x ≤ 1 := min_le_left 1 _

theorem ite_zero_one (c : Prop) [Decidable c] :
    (if c then (1 : ℕ) else 0) = 0 ∨ (if c then (1 : ℕ) else 0) = 1 := by
  by_cases hc : c <;> simp [hc]

theorem foldl_min_const (xs : List ℚ) (c : ℚ) (h : ∀ v ∈ xs, v = c) :
    xs.foldl min c = c := by
  induction xs with
  | nil => rfl
  | cons x rest ih =>
      have hx : x = c := h x (List.mem_cons_self x rest)
      have : List.foldl min (min c x) rest = List.foldl min c rest := by
        rw [hx, min_self]
      rw [List.foldl_cons, this]
      exact ih fun v hv => h v (List.mem_cons_of_mem x hv)

theorem foldl_max_const (xs : List ℚ) (c : ℚ) (h : ∀ v ∈ xs, v = c) :
    xs.foldl max c = c := by
  induction xs with
  | nil => rfl
  | cons x rest ih =>
      have hx : x = c := h x (List.mem_cons_self x rest)
      have : List.foldl max (max c x) rest = List.foldl max c rest := by
        rw [hx, max_self]
      rw [List.foldl_cons, this]
      exact ih fun v hv => h v (List.mem_cons_of_mem x hv)

theorem listMin_const (xs : List ℚ) (c : ℚ) (hne : xs ≠ [])
    (h : ∀ v ∈ xs, v = c) : listMin xs = c := by
  cases xs with
  | nil => exact absurd rfl hne
  | cons x rest =>
      have hx : x = c := h x (List.mem_cons_self x rest)
      rw [listMin, hx]
      exact foldl_min_const rest c fun v hv => h v (List.mem_cons_of_mem x hv)

theorem listMax_const (xs : List ℚ) (c : ℚ) (hne : xs ≠ [])
    (h : ∀ v ∈ xs, v = c) : listMax xs = c := by
  cases xs with
  | nil => exact absurd rfl hne
  | cons x rest =>
      have hx : x = c := h x (List.mem_cons_self x rest)
      rw [listMax, hx]
      exact foldl_max_const rest c fun v hv => h v (List.mem_cons_of_mem x hv)

/-! ## Claims -/

/-- C10: `train_test_split` returns identical results for any two values of
the `random_state` argument: the parameter is accepted but never read, and
the split is purely chronological with no randomness. -/
theorem train_test_split_ignores_random_state :
    ∀ (data : PreparedData) (test_size : ℚ) (r1 r2 : Int),
      train_test_split data test_size r1 = train_test_split data test_size r2 :=
  fun _ _ _ _ => rfl

/-- C7: `load_data` on an in-memory table without a date column fails with
the schema-error kind of error (the Python `ValueError`, here `valueError`,
saying the frame must include a Date column), which is distinct from the
`typeError` kind used for unsupported source types, and no dataset is
returned. -/
theorem load_data_missing_date_raises_schema_error :
    ∀ rows : List Row,
      load_data (Source.frame false rows) =
          .error (.valueError "DataFrame must include a Date column")
        ∧ (∀ out, load_data (Source.frame false rows) ≠ .ok out)
        ∧ ∀ msg, LoadError.valueError "DataFrame must include a Date column" ≠
            LoadError.typeError msg := by
  intro rows
  refine ⟨rfl, ?_, ?_⟩
  · intro out hout
    simp [load_data] at hout
  · intro msg hmsg
    simp at hmsg

/-- C9: min-max normalizing a column whose values are all equal (zero global
range) yields the all-zero column: the normalization divides by 1 instead of
0, producing neither NaN nor a division error. -/
theorem minmaxNorm_zero_range :
    ∀ (xs : List ℚ) (c : ℚ), xs ≠ [] → (∀ v ∈ xs, v = c) →
      minmaxNorm xs = List.replicate xs.length 0 := by
  intro xs c hne hall
  have hmin : listMin xs = c := listMin_const xs c hne hall
  have hmax : listMax xs = c := listMax_const xs c hne hall
  rw [List.eq_replicate_iff]
  constructor
  · simp [minmaxNorm]
  · intro b hb
    simp only [minmaxNorm, List.mem_map] at hb
    obtain ⟨v, hv, hvb⟩ := hb
    rw [hall v hv, hmin, hmax] at hvb
    simpa using hvb.symm

unseal Rat.add Rat.mul Rat.sub Rat.inv Nat.gcd in
theorem minmaxNorm_zero_range_witness :
    (([(5 : ℚ), 5] ≠ []) ∧ ∀ v ∈ [(5 : ℚ), 5], v = 5)
      ∧ minmaxNorm [(5 : ℚ), 5] = List.replicate ([(5 : ℚ), 5]).length 0 :=
  ⟨⟨by decide, by decide⟩, minmaxNorm_zero_range [5, 5] 5 (by decide) (by decide)⟩

/-- C3: for every row, `risk_score` is the clip to [0, 1] of
`0.4 * rolling_inventory_30_norm + 0.3 * (1 - sell_through_rate_norm)
+ 0.3 * (1 - clip(rolling_sales_7 / (rolling_inventory_30 + eps), 0, 1))`
(NaN coercion is the identity in exact rational arithmetic), hence
`risk_score` lies in [0, 1] and `dead_stock_label` lies in {0, 1}. -/
theorem risk_score_formula_bounds :
    ∀ (rows : List ERow) (i : Nat), i < rows.length →
      ((label_dead_stock rows).getD i default).risk_score =
          clip 0 1
            ((4 / 10) * (rows.getD i default).rolling_inventory_30_norm
              + (3 / 10) * (1 - (rows.getD i default).sell_through_rate_norm)
              + (3 / 10) * (1 - clip 0 1 ((rows.getD i default).rolling_sales_7 /
                  ((rows.getD i default).rolling_inventory_30 + eps))))
        ∧ 0 ≤ ((label_dead_stock rows).getD i default).risk_score
        ∧ ((label_dead_stock rows).getD i default).risk_score ≤ 1
        ∧ (((label_dead_stock rows).getD i default).dead_stock_label = 0
            ∨ ((label_dead_stock rows).getD i default).dead_stock_label = 1) := by
  intro rows i h
  have hrow : (label_dead_stock rows).getD i default =
      (fun r : ERow =>
        ({ r with
          dead_stock_label :=
            if (decide (quantileLinear (45 / 100) (rows.map (·.rolling_inventory_30)) <
                    r.rolling_inventory_30)
                  && decide (r.rolling_sales_7 ≤ (1 / 10) * r.rolling_inventory_30)
                || decide (50 < r.inventoryLevel - r.demandForecast)
                  && decide (r.sell_through_rate < 3 / 10)
                || decide (quantileLinear (45 / 100) (rows.map (·.rolling_inventory_30)) <
                    r.rolling_inventory_30) && decide (r.unitsSold = 0)
                || decide (quantileLinear (45 / 100) (rows.map (·.rolling_inventory_30)) <
                    r.rolling_inventory_30) && decide (r.unitsSold ≤ 5)) then 1 else 0
          risk_score :=
            clip 0 1
              ((4 / 10) * r.rolling_inventory_30_norm
                + (3 / 10) * (1 - r.sell_through_rate_norm)
                + (3 / 10) * (1 - clip 0 1 (r.rolling_sales_7 /
                    (r.rolling_inventory_30 + eps)))) } : LRow))
        (rows.getD i default) := by
    unfold label_dead_stock
    exact getD_map_lt _ rows i h default default
  rw [hrow]
  refine ⟨rfl, clip01_nonneg _, clip01_le_one _, ite_zero_one _⟩

unseal Rat.add Rat.mul Rat.sub Rat.inv Nat.gcd List.mergeSort List.merge in
theorem risk_score_formula_bounds_witness :
    0 < [erW].length
      ∧ 0 ≤ ((label_dead_stock [erW]).getD 0 default).risk_score
      ∧ ((label_dead_stock [erW]).getD 0 default).risk_score ≤ 1 :=
  ⟨by decide, (risk_score_formula_bounds [erW] 0 (by decide)).2.1,
    (risk_score_formula_bounds [erW] 0 (by decide)).2.2.1⟩

/-- C2: for every row of the engineered table, `dead_stock_label` is 1 iff at
least one of the four rule disjuncts holds: (high_inventory and
slow_turnover), (overstock_vs_forecast and weak_sell_through),
(high_inventory and no_sales_today), (high_inventory and low_units_sold),
with high_inventory the strict comparison of `rolling_inventory_30` against
its 45th percentile over the whole dataset. -/
theorem dead_stock_label_rule :
    ∀ (rows : List ERow) (i : Nat), i < rows.length →
      (((label_dead_stock rows).getD i default).dead_stock_label = 1 ↔
        (quantileLinear (45 / 100) (rows.map (·.rolling_inventory_30)) <
              (rows.getD i default).rolling_inventory_30
            ∧ (rows.getD i default).rolling_sales_7 ≤
              (1 / 10) * (rows.getD i default).rolling_inventory_30)
          ∨ (50 < (rows.getD i default).inventoryLevel -
                (rows.getD i default).demandForecast
              ∧ (rows.getD i default).sell_through_rate < 3 / 10)
          ∨ (quantileLinear (45 / 100) (rows.map (·.rolling_inventory_30)) <
                (rows.getD i default).rolling_inventory_30
              ∧ (rows.getD i default).unitsSold = 0)
          ∨ (quantileLinear (45 / 100) (rows.map (·.rolling_inventory_30)) <
                (rows.getD i default).rolling_inventory_30
              ∧ (rows.getD i default).unitsSold ≤ 5)) := by
  intro rows i h
  have hrow : (label_dead_stock rows).getD i default =
      (fun r : ERow =>
        ({ r with
          dead_stock_label :=
            if (decide (quantileLinear (45 / 100) (rows.map (·.rolling_inventory_30)) <
                    r.rolling_inventory_30)
                  && decide (r.rolling_sales_7 ≤ (1 / 10) * r.rolling_inventory_30)
                || decide (50 < r.inventoryLevel - r.demandForecast)
                  && decide (r.sell_through_rate < 3 / 10)
                || decide (quantileLinear (45 / 100) (rows.map (·.rolling_inventory_30)) <
                    r.rolling_inventory_30) && decide (r.unitsSold = 0)
                || decide (quantileLinear (45 / 100) (rows.map (·.rolling_inventory_30)) <
                    r.rolling_inventory_30) && decide (r.unitsSold ≤ 5)) then 1 else 0
          risk_score :=
            clip 0 1
              ((4 / 10) * r.rolling_inventory_30_norm
                + (3 / 10) * (1 - r.sell_through_rate_norm)
                + (3 / 10) * (1 - clip 0 1 (r.rolling_sales_7 /
                    (r.rolling_inventory_30 + eps)))) } : LRow))
        (rows.getD i default) := by
    unfold label_dead_stock
    exact getD_map_lt _ rows i h default default
  rw [hrow]
  simp only [Bool.or_eq_true, Bool.and_eq_true, decide_eq_true_eq]
  constructor
  · intro h1
    by_contra hnot
    rw [if_neg] at h1
    · exact absurd h1 (by norm_num)
    · intro hc
      exact hnot (by tauto)
  · intro hdisj
    rw [if_pos (by tauto)]

unseal Rat.add Rat.mul Rat.sub Rat.inv Nat.gcd List.mergeSort List.merge in
theorem dead_stock_label_rule_witness :
    ((label_dead_stock [erW]).getD 0 default).dead_stock_label = 1 :=
  (dead_stock_label_rule [erW] 0 (by decide)).mpr (by decide)

theorem dslsGo_length (c : ℚ) (values : List ℚ) :
    (dslsGo c values).length = values.length := by
  induction values generalizing c with
  | nil => rfl
  | cons v rest ih => simp [dslsGo, ih]

theorem dslsGo_getD (values : List ℚ) :
    ∀ (c : ℚ) (i : Nat), i < values.length →
      (dslsGo c values).getD i 0 =
        if 0 < values.getD i 0 then 0
        else if i = 0 then c + 1 else (dslsGo c values).getD (i - 1) 0 + 1 := by
  induction values with
  | nil => intro c i h; exact absurd h (by simp)
  | cons v rest ih =>
      intro c i h
      have hcons : dslsGo c (v :: rest) =
          (if 0 < v then 0 else c + 1) ::
            dslsGo (if 0 < v then 0 else c + 1) rest := rfl
      cases i with
      | zero =>
          rw [hcons, List.getD_cons_zero, List.getD_cons_zero, if_pos rfl]
      | succ j =>
          have hj : j < rest.length := by simpa using h
          rw [hcons, List.getD_cons_succ, List.getD_cons_succ, ih _ j hj]
          by_cases hr : 0 < rest.getD j 0
          · rw [if_pos hr, if_pos hr]
          · rw [if_neg hr, if_neg hr]
            have hne : ¬ (j + 1 = 0) := by omega
            rw [if_neg hne]
            cases j with
            | zero =>
                rw [if_pos rfl, Nat.add_sub_cancel, List.getD_cons_zero]
            | succ k =>
                have hne2 : ¬ (k + 1 = 0) := by omega
                rw [if_neg hne2, Nat.add_sub_cancel, Nat.add_sub_cancel,
                  List.getD_cons_succ]

unseal Rat.add Rat.mul Rat.sub Rat.inv Nat.gcd List.mergeSort List.merge in
/-- C1 counterexample: on a group whose first row has `units_sold = 0` the
code yields `days_since_sale = 1` at that first row, not 0 — the counter is
initialized to 0 entering the group and then incremented, so the claimed
"0 at the first row regardless of its sales value" is false. -/
theorem days_since_sale_first_row_not_zero :
    ((engineer_features [rowB]).getD 0 default).days_since_sale = 1
      ∧ ((engineer_features [rowB]).getD 0 default).days_since_sale ≠ 0 := by
  constructor <;> decide

/-- C1 amended: for the per-group counter `_days_since_last_sale`, a row with
`units_sold > 0` gets 0; any other row gets one more than the previous row's
value, where the first row of a group continues from the initial counter
value 0 and therefore gets 1 (not 0) when its sales are zero. -/
theorem days_since_last_sale_recurrence :
    ∀ (values : List ℚ) (i : Nat), i < values.length →
      (daysSinceLastSale values).getD i 0 =
        if 0 < values.getD i 0 then 0
        else if i = 0 then 1 else (daysSinceLastSale values).getD (i - 1) 0 + 1 := by
  intro values i h
  have := dslsGo_getD values 0 i h
  simpa [daysSinceLastSale] using this

unseal Rat.add Rat.mul Rat.sub Rat.inv Nat.gcd in
theorem days_since_last_sale_recurrence_witness :
    2 < ([(5 : ℚ), 0, 0] : List ℚ).length
      ∧ (daysSinceLastSale [(5 : ℚ), 0, 0]).getD 2 0 =
          (if 0 < ([(5 : ℚ), 0, 0] : List ℚ).getD 2 0 then 0
            else if (2 : Nat) = 0 then 1
            else (daysSinceLastSale [(5 : ℚ), 0, 0]).getD 1 0 + 1) :=
  ⟨by decide, days_since_last_sale_recurrence [5, 0, 0] 2 (by decide)⟩

/-- C4: for every input the full pipeline accepts, the returned features,
labels and raw views have identical row count and identical row order: each
feature row is the projection of the raw row at the same index, and each
label is that raw row's `dead_stock_label`. -/
theorem prepare_dataset_views_aligned :
    ∀ (source : Source) (pd : PreparedData), prepare_dataset source = .ok pd →
      pd.features.length = pd.raw.length
        ∧ pd.labels.length = pd.raw.length
        ∧ ∀ i : Nat, i < pd.raw.length →
            pd.features.getD i default = toFeatRow (pd.raw.getD i default)
              ∧ pd.labels.getD i 0 = (pd.raw.getD i default).dead_stock_label := by
  intro source pd h
  unfold prepare_dataset at h
  cases hload : load_data source with
  | error e =>
      rw [hload] at h
      exact absurd h (by simp [Except.map])
  | ok rows =>
      rw [hload] at h
      simp only [Except.map] at h
      have hpd : pd =
          { features := (label_dead_stock (engineer_features rows)).map toFeatRow
            labels := (label_dead_stock (engineer_features rows)).map
              (·.dead_stock_label)
            raw := label_dead_stock (engineer_features rows) } := by
        cases h
        rfl
      subst hpd
      refine ⟨by simp, by simp, ?_⟩
      intro i hi
      constructor
      · exact getD_map_lt toFeatRow _ i hi default default
      · exact getD_map_lt (·.dead_stock_label) _ i hi 0 default

unseal Rat.add Rat.mul Rat.sub Rat.inv Nat.gcd List.mergeSort List.merge in
theorem prepare_dataset_views_aligned_witness :
    prepare_dataset srcW = .ok pdW ∧ pdW.features.length = pdW.raw.length :=
  ⟨by decide, (prepare_dataset_views_aligned srcW pdW (by decide)).1⟩

/-- C5: on aligned views, the splitter sorts by date ascending, puts the
first `floor(n * (1 - test_size))` rows in train and the rest in test, so
train and test lengths sum to `n`, every train-row date is at most every
test-row date, and the returned feature frames are the date- and label-free
projections of the sorted rows. -/
theorem train_test_split_chronological :
    ∀ (data : PreparedData) (t : ℚ) (rs : Int),
      data.labels.length = data.features.length →
      data.raw.length = data.features.length →
      (train_test_split data t rs).1.length +
          (train_test_split data t rs).2.1.length = data.features.length
        ∧ (train_test_split data t rs).2.2.1.length +
            (train_test_split data t rs).2.2.2.length = data.features.length
        ∧ splitIdx (ttSorted data).length t =
            (Int.floor ((data.features.length : ℚ) * (1 - t))).toNat
        ∧ (∀ a ∈ (ttSorted data).take (splitIdx (ttSorted data).length t),
            ∀ b ∈ (ttSorted data).drop (splitIdx (ttSorted data).length t),
              a.date.ord ≤ b.date.ord)
        ∧ (train_test_split data t rs).1 =
            ((ttSorted data).take (splitIdx (ttSorted data).length t)).map (·.f)
        ∧ (train_test_split data t rs).2.1 =
            ((ttSorted data).drop (splitIdx (ttSorted data).length t)).map (·.f)
        ∧ (train_test_split data t rs).2.2.1 =
            ((ttSorted data).take (splitIdx (ttSorted data).length t)).map
              (·.dead_stock)
        ∧ (train_test_split data t rs).2.2.2 =
            ((ttSorted data).drop (splitIdx (ttSorted data).length t)).map
              (·.dead_stock) := by
  intro data t rs h1 h2
  have hlen : (ttSorted data).length = data.features.length := by
    unfold ttSorted
    rw [List.length_mergeSort, List.length_map, List.length_zip,
      List.length_zip, List.length_map, h1, h2]
    simp
  have hsum : ∀ k : Nat,
      ((ttSorted data).take k).length + ((ttSorted data).drop k).length =
        (ttSorted data).length := by
    intro k
    rw [← List.length_append, List.take_append_drop]
  have hpair : List.Pairwise
      (fun a b : TTRow => decide (a.date.ord ≤ b.date.ord) = true)
      (ttSorted data) := by
    unfold ttSorted
    exact List.sorted_mergeSort
      (fun a b c hab hbc => by
        simp only [decide_eq_true_eq] at *
        exact Nat.le_trans hab hbc)
      (fun a b => by
        simp only [Bool.or_eq_true, decide_eq_true_eq]
        exact Nat.le_total _ _)
      _
  refine ⟨?_, ?_, by rw [splitIdx, hlen], ?_, rfl, rfl, rfl, rfl⟩
  · have e1 : (train_test_split data t rs).1 =
        ((ttSorted data).take (splitIdx (ttSorted data).length t)).map (·.f) := rfl
    have e2 : (train_test_split data t rs).2.1 =
        ((ttSorted data).drop (splitIdx (ttSorted data).length t)).map (·.f) := rfl
    rw [e1, e2, List.length_map, List.length_map, hsum, hlen]
  · have e3 : (train_test_split data t rs).2.2.1 =
        ((ttSorted data).take (splitIdx (ttSorted data).length t)).map
          (·.dead_stock) := rfl
    have e4 : (train_test_split data t rs).2.2.2 =
        ((ttSorted data).drop (splitIdx (ttSorted data).length t)).map
          (·.dead_stock) := rfl
    rw [e3, e4, List.length_map, List.length_map, hsum, hlen]
  · intro a ha b hb
    have hpair2 : List.Pairwise
        (fun a b : TTRow => decide (a.date.ord ≤ b.date.ord) = true)
        ((ttSorted data).take (splitIdx (ttSorted data).length t) ++
          (ttSorted data).drop (splitIdx (ttSorted data).length t)) := by
      rw [List.take_append_drop]
      exact hpair
    exact of_decide_eq_true ((List.pairwise_append.mp hpair2).2.2 a ha b hb)

unseal Rat.add Rat.mul Rat.sub Rat.inv Nat.gcd List.mergeSort List.merge in
theorem train_test_split_chronological_witness :
    pdW.labels.length = pdW.features.length
      ∧ pdW.raw.length = pdW.features.length
      ∧ (train_test_split pdW (1 / 3) 7).1.length +
          (train_test_split pdW (1 / 3) 7).2.1.length = pdW.features.length :=
  ⟨by decide, by decide,
    (train_test_split_chronological pdW (1 / 3) 7 (by decide) (by decide)).1⟩

unseal Rat.add Rat.mul Rat.sub Rat.inv Nat.gcd List.mergeSort List.merge in
/-- C6 (refuted — the code mutates): `engineer_features` and
`label_dead_stock` assign their derived columns directly on the frame object
passed in and return that same object, so after each call a caller holding a
reference to the input frame sees it changed (eleven new columns after the
feature stage, two more after the label stage), contradicting the required
no-in-place-mutation contract. Shown here on a concrete one-row frame. -/
theorem stages_mutate_input_frame :
    (engineer_features_obj ⟨[rowA], []⟩).2 ≠ (⟨[rowA], []⟩ : ObjFrame)
      ∧ (label_dead_stock_obj (engineer_features_obj ⟨[rowA], []⟩).1).2 ≠
          (engineer_features_obj ⟨[rowA], []⟩).1 := by
  constructor <;> decide

theorem filter_take_len_succ {α : Type} (p : α → Bool) (l : List α) (i : Nat)
    (h : i < l.length) (d : α) (hp : p (l.getD i d) = true) :
    ((l.take (i + 1)).filter p).length = ((l.take i).filter p).length + 1 := by
  have htake : l.take (i + 1) = l.take i ++ [l.getD i d] := by
    rw [List.getD_eq_getElem _ _ h, List.take_succ, List.getElem?_eq_getElem h]
    rfl
  rw [htake, List.filter_append, List.length_append]
  have hx : p (l[i]?.getD d) = true := by simpa [List.getD] using hp
  simp [hx]

theorem filter_take_front {α : Type} (p : α → Bool) : ∀ (l : List α) (i : Nat),
    (l.filter p).take (((l.take i).filter p).length) = (l.take i).filter p := by
  intro l
  induction l with
  | nil => intro i; simp
  | cons x xs ih =>
      intro i
      cases i with
      | zero => simp
      | succ j =>
          rw [List.take_succ_cons]
          by_cases hp : p x
          · rw [List.filter_cons_of_pos hp, List.filter_cons_of_pos hp,
              List.length_cons, List.take_succ_cons]
            rw [ih j]
          · rw [List.filter_cons_of_neg hp, List.filter_cons_of_neg hp]
            exact ih j

theorem rollingMean_getD (w : Nat) (xs : List ℚ) (p : Nat) (h : p < xs.length) :
    (rollingMean w xs).getD p 0 = mean ((xs.take (p + 1)).drop (p + 1 - w)) := by
  unfold rollingMean
  rw [List.getD_eq_getElem _ _ (by simpa using h), List.getElem_mapIdx]

theorem groupTransform_getD (f : List ℚ → List ℚ) (proj : Row → ℚ)
    (rows : List Row) (i : Nat) (h : i < rows.length) :
    (groupTransform f proj rows).getD i 0 =
      (f ((rows.filter fun s =>
          decide (groupKey s = groupKey (rows.getD i default))).map proj)).getD
        (((rows.take i).filter fun s =>
          decide (groupKey s = groupKey (rows.getD i default))).length) 0 := by
  unfold groupTransform
  rw [List.getD_eq_getElem _ _ (by simpa using h), List.getElem_mapIdx,
    List.getD_eq_getElem rows default h]

theorem groupTransform_rolling_eq_spec (w : Nat) (proj : Row → ℚ)
    (rows : List Row) (i : Nat) (h : i < rows.length) :
    (groupTransform (rollingMean w) proj rows).getD i 0 =
      mean (specTrailingWindow w proj rows i) := by
  have hp : (fun s => decide (groupKey s = groupKey (rows.getD i default)))
      (rows.getD i default) = true := by simp
  have hrank1 : ((rows.take (i + 1)).filter fun s =>
        decide (groupKey s = groupKey (rows.getD i default))).length =
      ((rows.take i).filter fun s =>
        decide (groupKey s = groupKey (rows.getD i default))).length + 1 :=
    filter_take_len_succ _ rows i h default hp
  have hpre := filter_take_front
    (fun s => decide (groupKey s = groupKey (rows.getD i default))) rows (i + 1)
  have hflen : ((rows.take (i + 1)).filter fun s =>
        decide (groupKey s = groupKey (rows.getD i default))).length ≤
      ((rows.filter fun s =>
        decide (groupKey s = groupKey (rows.getD i default))).length) := by
    have hmin := congrArg List.length hpre
    rw [List.length_take] at hmin
    have := Nat.min_le_right
      (((rows.take (i + 1)).filter fun s =>
        decide (groupKey s = groupKey (rows.getD i default))).length)
      ((rows.filter fun s =>
        decide (groupKey s = groupKey (rows.getD i default))).length)
    rw [hmin] at this
    exact this
  have hrlt : ((rows.take i).filter fun s =>
        decide (groupKey s = groupKey (rows.getD i default))).length <
      ((rows.filter fun s =>
        decide (groupKey s = groupKey (rows.getD i default))).map proj).length := by
    rw [List.length_map]
    omega
  rw [groupTransform_getD (rollingMean w) proj rows i h,
    rollingMean_getD w _ _ hrlt]
  have hseq : (((rows.filter fun s =>
        decide (groupKey s = groupKey (rows.getD i default))).map proj).take
          (((rows.take i).filter fun s =>
            decide (groupKey s = groupKey (rows.getD i default))).length + 1)) =
      ((rows.take (i + 1)).filter fun s =>
        decide (groupKey s = groupKey (rows.getD i default))).map proj := by
    rw [← List.map_take]
    congr 1
    rw [← hrank1]
    exact filter_take_front _ rows (i + 1)
  rw [hseq]
  simp only [specTrailingWindow, List.length_map, hrank1]

theorem engineer_features_rs7_getD (rows : List Row) (i : Nat)
    (h : i < rows.length) :
    ((engineer_features rows).getD i default).rolling_sales_7 =
      (groupTransform (rollingMean 7) (·.unitsSold) rows).getD i 0 := by
  unfold engineer_features
  rw [List.getD_eq_getElem _ _ (by simpa using h), List.getElem_mapIdx]

theorem engineer_features_rs30_getD (rows : List Row) (i : Nat)
    (h : i < rows.length) :
    ((engineer_features rows).getD i default).rolling_sales_30 =
      (groupTransform (rollingMean 30) (·.unitsSold) rows).getD i 0 := by
  unfold engineer_features
  rw [List.getD_eq_getElem _ _ (by simpa using h), List.getElem_mapIdx]

theorem engineer_features_ri30_getD (rows : List Row) (i : Nat)
    (h : i < rows.length) :
    ((engineer_features rows).getD i default).rolling_inventory_30 =
      (groupTransform (rollingMean 30) (·.inventoryLevel) rows).getD i 0 := by
  unfold engineer_features
  rw [List.getD_eq_getElem _ _ (by simpa using h), List.getElem_mapIdx]

/-- C8: for every loaded table and every row, `rolling_sales_7` is the mean
of `units_sold` over that row and the up-to-6 immediately preceding rows of
the same (store, product) group, and analogously `rolling_sales_30` and
`rolling_inventory_30` with window 30 — rows of other groups and future rows
never contribute (the window is drawn from the same-group rows at positions
up to the current one only). -/
theorem engineer_features_rolling_windows :
    ∀ (rows : List Row) (i : Nat), i < rows.length →
      ((engineer_features rows).getD i default).rolling_sales_7 =
          mean (specTrailingWindow 7 (·.unitsSold) rows i)
        ∧ ((engineer_features rows).getD i default).rolling_sales_30 =
            mean (specTrailingWindow 30 (·.unitsSold) rows i)
        ∧ ((engineer_features rows).getD i default).rolling_inventory_30 =
            mean (specTrailingWindow 30 (·.inventoryLevel) rows i) := by
  intro rows i h
  refine ⟨?_, ?_, ?_⟩
  · rw [engineer_features_rs7_getD rows i h]
    exact groupTransform_rolling_eq_spec 7 _ rows i h
  · rw [engineer_features_rs30_getD rows i h]
    exact groupTransform_rolling_eq_spec 30 _ rows i h
  · rw [engineer_features_ri30_getD rows i h]
    exact groupTransform_rolling_eq_spec 30 _ rows i h

unseal Rat.add Rat.mul Rat.sub Rat.inv Nat.gcd List.mergeSort List.merge in
theorem engineer_features_rolling_windows_witness :
    1 < [rowB, rowA, rowC].length
      ∧ ((engineer_features [rowB, rowA, rowC]).getD 1 default).rolling_sales_7 =
          mean (specTrailingWindow 7 (·.unitsSold) [rowB, rowA, rowC] 1) :=
  ⟨by decide, (engineer_features_rolling_windows [rowB, rowA, rowC] 1 (by decide)).1⟩

end RetailDeadstock
